import Mathlib

/-!
Shallow embedding of the HttpClientPool repository (Go) for checking its
natural-language specification.

Times are modelled as `Nat` ticks (one tick per millisecond). The Go zero
`time.Time` is tick `0`; `t1.After t2` is `t1 > t2` and `t1.Before t2` is
`t1 < t2`; `t.Add d` is `t + d`. A Go `*Client` is identified by its index
in the pool's collection, and mutation through the pointer is modelled by
returning the updated collection.
-/

namespace HttpClientPool

/-- A `Client` as in `client.go` / `Utils/utils.go`: optional proxy, a
user-agent string, a per-client minimum delay, the busy flag `running`
and the timestamp of the last request start (`lastReqTime`, Go zero
value is tick 0). -/
structure Client where
  proxy : Option String
  userAgent : String
  delay : Nat
  running : Bool
  lastReqTime : Nat
deriving Repr, DecidableEq

/-- `NewClient` (src/client.go lines 31-50): the new client keeps the given
proxy, user agent and delay; `running` and `lastReqTime` stay at their Go
zero values (`false` and tick 0). -/
def NewClient (proxy : Option String) (userAgent : String) (delay : Nat) : Client :=
  { proxy := proxy, userAgent := userAgent, delay := delay,
    running := false, lastReqTime := 0 }

/-- `Client.SetActive` (src/Utils/utils.go lines 329-334): marks the client
as active and updates `lastReqTime` to the current time. -/
def Client.SetActive (client : Client) (now : Nat) : Client :=
  { client with running := true, lastReqTime := now }

/-- `Client.SetInactive` (src/Utils/utils.go lines 337-341): marks the
client as inactive. -/
def Client.SetInactive (client : Client) : Client :=
  { client with running := false }

/-- `Client.IsAvailable`, the `src/Utils/utils.go` lines 369-381 version:
false when `running`; false when `lastReqTime + delay` is After `now`
(still rate-limited); true otherwise. -/
def Client.IsAvailable (client : Client) (now : Nat) : Bool :=
  if client.running then false
  else if client.lastReqTime + client.delay > now then false
  else true

/-- `Client.IsAvailable`, the `src/client.go` lines 68-78 version: false
when `running`; false when `lastReqTime + delay` is Before `now`; true
otherwise. Note the comparison direction differs from the
`Utils/utils.go` version. -/
def Client.IsAvailableClientGo (client : Client) (now : Nat) : Bool :=
  if client.running then false
  else if client.lastReqTime + client.delay < now then false
  else true

/-- The pool from `src/pool.go` lines 40-44: an ordered collection of
clients and the pool-wide delay. -/
structure ClientPool where
  Clients : List Client
  delay : Nat
deriving Repr, DecidableEq

/-- `NewClientPool` (src/pool.go lines 56-75), the client collection it
builds. Go `[]*Client` entries may be nil pointers, modelled as
`Option Client`. With nil proxies it builds the one-element slice holding
a single no-proxy client. With a non-nil proxies slice it first allocates
`make([]*Client, len(proxies))` (that many nil entries) and then appends
one freshly constructed client per proxy. `Utils.GetRandomUseragent` is a
weighted-random draw made once per constructed client; it is abstracted
as the function `ua` from the construction step number to the drawn
string. -/
def NewClientPoolClients (clientDelay : Nat) (proxies : Option (List String))
    (ua : Nat → String) : List (Option Client) :=
  match proxies with
  | none => [some (NewClient none (ua 0) clientDelay)]
  | some ps =>
      List.replicate ps.length none ++
        ps.enum.map (fun ip => some (NewClient (some ip.2) (ua ip.1) clientDelay))

/-- `ClientPool.AddClient` (src/pool.go lines 81-83) has a value receiver:
`func (pool ClientPool) AddClient(client *Client)`. The method body runs
on a copy of the receiver; this is that copy's state after
`pool.Clients = append(pool.Clients, client)`. -/
def ClientPool.AddClientReceiverCopy (pool : ClientPool) (client : Client) : ClientPool :=
  { pool with Clients := pool.Clients ++ [client] }

/-- The caller's pool after `pool.AddClient(client)` (src/pool.go lines
81-83). Go passes the value receiver by copy, and `append` reassigns only
the copy's `Clients` field: the caller's slice header keeps its length
and the elements below that length are untouched (`append` writes at or
beyond the old length), so the caller observes an unchanged pool. -/
def ClientPool.AddClientCaller (pool : ClientPool) (_client : Client) : ClientPool :=
  pool

/-- The first loop of `ClientPool.GetClient` (src/pool.go lines 111-118):
walk the collection with accumulator `lastReqTime` (starting at the zero
time); whenever a client's `lastReqTime` is After the accumulator, the
accumulator takes that (old) value and `client.SetActive()` is called on
the client. Returns the updated collection and the final accumulator. -/
def gateScan : List Client → Nat → Nat → List Client × Nat
  | [], _, acc => ([], acc)
  | client :: rest, now, acc =>
      if client.lastReqTime > acc then
        let out := gateScan rest now client.lastReqTime
        (client.SetActive now :: out.1, out.2)
      else
        let out := gateScan rest now acc
        (client :: out.1, out.2)

/-- The second loop of `ClientPool.GetClient` (src/pool.go lines 121-125):
the index of the first client for which `IsAvailable()` is true, if any.
The `Utils/utils.go` `IsAvailable` is the one the pool's client type
provides. -/
def findAvailable : List Client → Nat → Option Nat
  | [], _ => none
  | client :: rest, now =>
      if client.IsAvailable now then some 0
      else (findAvailable rest now).map (fun i => i + 1)

/-- One iteration of the outer loop of `ClientPool.GetClient` (src/pool.go
lines 110-127): run the gate scan from the zero time, then, if
`lastReqTime.Add(pool.delay)` is not After `now`, scan for the first
available client. Returns the pool after the iteration and the index of
the returned client, if one was returned. -/
def getClientStep (pool : ClientPool) (now : Nat) : ClientPool × Option Nat :=
  let g := gateScan pool.Clients now 0
  let pool2 : ClientPool := { pool with Clients := g.1 }
  if g.2 + pool.delay > now then (pool2, none)
  else (pool2, findAvailable g.1 now)

/-- The `time.Sleep(time.Millisecond * 10)` polling interval of
`ClientPool.GetClient` (src/pool.go line 127), in ticks. -/
def pollInterval : Nat := 10

/-- `ClientPool.GetClient` (src/pool.go lines 109-129) with explicit fuel
bounding the number of loop iterations (the Go loop is unbounded; `none`
means the call has not returned within `fuel` iterations). On success
returns the pool state at return, the index of the returned client and
the return time. -/
def GetClient : Nat → ClientPool → Nat → Option (ClientPool × Nat × Nat)
  | 0, _, _ => none
  | fuel + 1, pool, now =>
      let s := getClientStep pool now
      match s.2 with
      | some i => some (s.1, i, now)
      | none => GetClient fuel s.1 (now + pollInterval)

end HttpClientPool

namespace HttpClientPool

/-- Claim C1 demo client: idle (`running = false`), `lastReqTime = 5`,
`delay = 3`. -/
def c1Client : Client :=
  { proxy := none, userAgent := "U", delay := 3, running := false, lastReqTime := 5 }

/-- C1: at `now = 10` the claim's admission condition holds for
`c1Client` (not busy, and `now - lastReqTime = 5 ≥ 3 = delay`), and the
`Utils/utils.go` `IsAvailable` reports true as the claim states; but the
`src/client.go` lines 68-78 `IsAvailable` — using `Before` where the
`Utils` version uses `After` — reports false on the very same client,
i.e. it reports an idle client whose delay has fully elapsed as not
available, contradicting the claim (and its own doc comment). -/
theorem c1_isAvailable_clientGo_inverted :
    c1Client.running = false ∧ c1Client.delay ≤ 10 - c1Client.lastReqTime ∧
    c1Client.IsAvailable 10 = true ∧ c1Client.IsAvailableClientGo 10 = false := by
  decide

end HttpClientPool

namespace HttpClientPool

/-- C2: on a single-client pool with zero delays and an idle never-used
client, `GetClient` returns (index 0 at time 7) but leaves the pool state
unchanged: in particular the returned client's busy flag is still
`false` at the moment of return. The claim says `GetClient` marks the
returned client busy (`SetActive`) before returning it; the code's only
`SetActive` call sits inside the most-recent-time scan (src/pool.go line
116) and is never applied to the client being returned. -/
theorem c2_getClient_returns_idle_client :
    GetClient 1 { Clients := [NewClient none "A" 0], delay := 0 } 7 =
      some ({ Clients := [NewClient none "A" 0], delay := 0 }, 0, 7) ∧
    (NewClient none "A" 0).running = false := by
  decide

/-- C3: the gate computation is not a pure read. Starting from a single
idle client with `lastReqTime = 2`, running the most-recent-time scan
(src/pool.go lines 111-118) at `now = 3` calls `SetActive` on that
client, leaving it with `running = true` and `lastReqTime = 3` — a state
different from the one before the scan, contradicting the claim that the
gate computation modifies no client. -/
theorem c3_gate_scan_mutates_clients :
    gateScan [{ proxy := none, userAgent := "B", delay := 0,
                running := false, lastReqTime := 2 }] 3 0 =
      ([{ proxy := none, userAgent := "B", delay := 0,
          running := true, lastReqTime := 3 }], 2) ∧
    ({ proxy := none, userAgent := "B", delay := 0,
       running := false, lastReqTime := 2 } : Client) ≠
      { proxy := none, userAgent := "B", delay := 0,
        running := true, lastReqTime := 3 } := by
  decide

/-- C4: pool cadence is violated. With poolDelay = 100 and two idle
clients whose last request times are 1 and 2, one `GetClient` iteration
at `now = 3` calls `SetActive` (the MarkBusy operation) on both clients
within the same gate scan: after the step both carry the MarkBusy
timestamp 3, so two MarkBusy events occur 0 ticks apart, and
`0 + pollInterval < 100`, i.e. the interval stays below the configured
poolDelay even after allowing the polling-interval slack. -/
theorem c4_pool_cadence_violated :
    ((getClientStep
        { Clients := [{ proxy := none, userAgent := "P", delay := 0,
                        running := false, lastReqTime := 1 },
                      { proxy := none, userAgent := "Q", delay := 0,
                        running := false, lastReqTime := 2 }],
          delay := 100 } 3).1.Clients.map Client.lastReqTime = [3, 3]) ∧
    ((getClientStep
        { Clients := [{ proxy := none, userAgent := "P", delay := 0,
                        running := false, lastReqTime := 1 },
                      { proxy := none, userAgent := "Q", delay := 0,
                        running := false, lastReqTime := 2 }],
          delay := 100 } 3).1.Clients.map Client.running = [true, true]) ∧
    0 + pollInterval < 100 := by
  decide

/-- C6: two acquisitions, one completing entirely before the other (a
legal schedule of two concurrent `GetClient` callers), both return the
same client: the first call returns index 0 without changing any state
(in particular without marking client 0 busy), so the second call also
returns index 0 while the first caller still holds it — the check-then-
mark step the claim requires is absent. -/
theorem c6_two_acquirers_same_client :
    GetClient 1 { Clients := [NewClient none "D" 0], delay := 0 } 5 =
      some ({ Clients := [NewClient none "D" 0], delay := 0 }, 0, 5) ∧
    GetClient 1 { Clients := [NewClient none "D" 0], delay := 0 } 6 =
      some ({ Clients := [NewClient none "D" 0], delay := 0 }, 0, 6) := by
  decide

/-- C5: with the one-element proxy list `["proxyA"]`, `NewClientPool`
builds a two-entry collection — `make([]*Client, 1)` contributes a nil
entry and the loop appends the one real client — instead of the claimed
exactly-one-client-per-proxy collection. -/
theorem c5_newClientPool_leading_nil_entries :
    NewClientPoolClients 7 (some ["proxyA"]) (fun _ => "UA") =
      [none, some (NewClient (some "proxyA") "UA" 7)] ∧
    (NewClientPoolClients 7 (some ["proxyA"]) (fun _ => "UA")).length ≠ 1 := by
  decide

/-- C8: `AddClient` on an empty pool. The method body does append the
client to its receiver copy, but the receiver is passed by value, so the
caller's pool still has length 0 afterwards — not the claimed length
increase by one. -/
theorem c8_addClient_not_visible_to_caller :
    (ClientPool.AddClientCaller { Clients := [], delay := 0 }
        (NewClient none "C" 1)).Clients.length = 0 ∧
    (ClientPool.AddClientReceiverCopy { Clients := [], delay := 0 }
        (NewClient none "C" 1)).Clients = [NewClient none "C" 1] := by
  decide

end HttpClientPool

namespace HttpClientPool

/-- C10: `NewClientPool` with a non-nil empty proxies list builds an empty
client collection (the nil-proxies single-client fallback fires only for
nil), and `GetClient` on a pool whose collection is empty returns within
no number of loop iterations, whatever the delays, the start time and
the fuel: the call never returns. -/
theorem c10_empty_proxies_getClient_never_returns
    (clientDelay poolDelay fuel now : Nat) (ua : Nat → String) :
    NewClientPoolClients clientDelay (some []) ua = [] ∧
    NewClientPoolClients clientDelay none ua =
      [some (NewClient none (ua 0) clientDelay)] ∧
    GetClient fuel { Clients := [], delay := poolDelay } now = none := by
  refine ⟨rfl, rfl, ?_⟩
  induction fuel generalizing now with
  | zero => rfl
  | succ n ih =>
      show (let s := getClientStep { Clients := [], delay := poolDelay } now
            match s.2 with
            | some i => some (s.1, i, now)
            | none => GetClient n s.1 (now + pollInterval)) = none
      have hstep : getClientStep { Clients := [], delay := poolDelay } now =
          ({ Clients := [], delay := poolDelay }, none) := by
        unfold getClientStep
        simp [gateScan, findAvailable]
      rw [hstep]
      exact ih (now + pollInterval)

end HttpClientPool

namespace HttpClientPool

/-- `ResponseData` (src/quick_request.go lines 49-62): status line, status
code, raw body and response cookies. The body is abstracted as a string
of bytes and the cookie map as an association list. -/
structure ResponseData where
  Status : String
  StatusCode : Nat
  Body : String
  Cookies : List (String × String)
deriving Repr, DecidableEq

/-- An HTTP response as received from `client.Do` — the fields of
`http.Response` that `QuickRequest` reads. -/
structure HttpResponse where
  Status : String
  StatusCode : Nat
  Body : String
  Cookies : List (String × String)
deriving Repr, DecidableEq

/-- The classified errors of `src/exceptions.go`: `RateLimitedError`
(lines 8-12) and `ResponseStatusError` (lines 14-32); the payload fields
of `ResponseStatusError` are irrelevant to classification and omitted. -/
inductive RequestError where
  | rateLimited
  | responseStatus
deriving Repr, DecidableEq

/-- The outcome of the `src/pool.go` lines 286-311 `Client.QuickRequest`
as a function of the received response: status 200 (`http.StatusOK`)
returns the response data with a nil error, status 429
(`http.StatusTooManyRequests`) returns `RateLimitedError`, every other
status returns `ResponseStatusError`. -/
def QuickRequestOutcomePoolGo (res : HttpResponse) : Except RequestError ResponseData :=
  if res.StatusCode = 200 then
    Except.ok { Status := res.Status, StatusCode := res.StatusCode,
                Body := res.Body, Cookies := res.Cookies }
  else if res.StatusCode = 429 then Except.error RequestError.rateLimited
  else Except.error RequestError.responseStatus

/-- The outcome of the `src/quick_request.go` lines 133-156
`Client.QuickRequest` as a function of the received response: the
response body and cookies are read and returned with a nil error for
every status code; no status classification is performed. -/
def QuickRequestOutcome (res : HttpResponse) : Except RequestError ResponseData :=
  Except.ok { Status := res.Status, StatusCode := res.StatusCode,
              Body := res.Body, Cookies := res.Cookies }

/-- C7 counterexample: the claim says `Client.QuickRequest` returns a
rate-limited error value exactly when the response status is 429, yet
the `src/quick_request.go` version returns the response with a nil error
on a concrete 429 response; moreover the `src/pool.go` version returns a
classified error on a concrete 204 response even though 204 is a success
status, so its nil-error outcome coincides with status 200 rather than
with success. -/
theorem c7_quickRequest_429_not_classified :
    QuickRequestOutcome
        { Status := "429 Too Many Requests", StatusCode := 429,
          Body := "b", Cookies := [] } ≠
      Except.error RequestError.rateLimited ∧
    QuickRequestOutcome
        { Status := "429 Too Many Requests", StatusCode := 429,
          Body := "b", Cookies := [] } =
      Except.ok { Status := "429 Too Many Requests", StatusCode := 429,
                  Body := "b", Cookies := [] } ∧
    QuickRequestOutcomePoolGo
        { Status := "204 No Content", StatusCode := 204,
          Body := "", Cookies := [] } =
      Except.error RequestError.responseStatus := by
  refine ⟨?_, rfl, rfl⟩
  intro h
  simp [QuickRequestOutcome] at h

/-- C7 amended: the `src/pool.go` snapshot's `QuickRequest` classifies the
received response — `RateLimitedError` exactly when the status is 429, a
nil error with the response data exactly when the status is 200 (only
200 counts as success), and `ResponseStatusError` exactly otherwise —
while the `src/quick_request.go` snapshot's `QuickRequest` performs no
classification and returns the response data with a nil error for every
status. -/
theorem c7_amended_quickRequest_classification (res : HttpResponse) :
    (QuickRequestOutcomePoolGo res = Except.error RequestError.rateLimited ↔
      res.StatusCode = 429) ∧
    (QuickRequestOutcomePoolGo res =
        Except.ok { Status := res.Status, StatusCode := res.StatusCode,
                    Body := res.Body, Cookies := res.Cookies } ↔
      res.StatusCode = 200) ∧
    (QuickRequestOutcomePoolGo res = Except.error RequestError.responseStatus ↔
      (res.StatusCode ≠ 200 ∧ res.StatusCode ≠ 429)) ∧
    QuickRequestOutcome res =
      Except.ok { Status := res.Status, StatusCode := res.StatusCode,
                  Body := res.Body, Cookies := res.Cookies } := by
  unfold QuickRequestOutcomePoolGo QuickRequestOutcome
  rcases h200 : decide (res.StatusCode = 200) with _ | _
  · rcases h429 : decide (res.StatusCode = 429) with _ | _
    · simp_all
    · simp_all
  · simp_all

end HttpClientPool

namespace HttpClientPool

/-- `RequestData` (src/quick_request.go lines 13-47), restricted to the
body-selecting fields: the raw reader, the JSON payload, the form fields
and the form files. Nilable Go values are `Option`; the reader and
payload contents are abstracted as strings, the maps as lists. -/
structure RequestData where
  RawData : Option String
  JsonData : Option String
  FormData : Option (List (String × String))
  FormFiles : Option (List String)
deriving Repr, DecidableEq

/-- Which source the request body is taken from. -/
inductive BodySource where
  | rawData
  | jsonData
  | formData
  | noBody
deriving Repr, DecidableEq

/-- The body-selection chain of `QuickRequest` (src/quick_request.go lines
81-101): `RawData` when non-nil, else `JsonData` when non-nil, else the
multipart form reader when `FormData` or `FormFiles` is non-nil, else
`http.NoBody`. -/
def bodySource (reqData : RequestData) : BodySource :=
  if reqData.RawData.isSome then BodySource.rawData
  else if reqData.JsonData.isSome then BodySource.jsonData
  else if reqData.FormData.isSome || reqData.FormFiles.isSome then BodySource.formData
  else BodySource.noBody

/-- C9: for every `RequestData`, the body is taken from `RawData` exactly
when `RawData` is non-nil; from `JsonData` exactly when `RawData` is nil
and `JsonData` non-nil; from the multipart form exactly when both are
nil and `FormData` or `FormFiles` is non-nil; and the request has an
empty body exactly when all four are nil. -/
theorem c9_body_source_precedence (reqData : RequestData) :
    (bodySource reqData = BodySource.rawData ↔ reqData.RawData ≠ none) ∧
    (bodySource reqData = BodySource.jsonData ↔
      reqData.RawData = none ∧ reqData.JsonData ≠ none) ∧
    (bodySource reqData = BodySource.formData ↔
      reqData.RawData = none ∧ reqData.JsonData = none ∧
        (reqData.FormData ≠ none ∨ reqData.FormFiles ≠ none)) ∧
    (bodySource reqData = BodySource.noBody ↔
      reqData.RawData = none ∧ reqData.JsonData = none ∧
        reqData.FormData = none ∧ reqData.FormFiles = none) := by
  obtain ⟨r, j, f, g⟩ := reqData
  cases r <;> cases j <;> cases f <;> cases g <;> simp [bodySource]

end HttpClientPool
